import Mathlib

/-!
Verification of the MiroFlow agent-orchestration engine.

Shallow embedding of the components under scrutiny:
* `src/src/utils/stream_parsing_utils.py` — `TextInterceptor` (the
  KeyTokenInterceptor of the specification);
* `src/src/llm/providers/opencode_client.py` — `OpenCodeClient`
  (`update_message_history`, `handle_max_turns_reached_summary_prompt`,
  `process_llm_response`);
* `src/src/core/orchestrator.py` — `Orchestrator`
  (`_handle_llm_call_with_logging`, `_handle_summary_with_context_limit_retry`,
  `get_scrape_result`, `post_process_tool_call_result`, the per-call dispatch
  of `run_main_agent` and `run_sub_agent`);
* `src/libs/miroflow-tool/src/miroflow/tool/manager.py` — `ToolManager`
  (`_should_block_hf_scraping`, `execute_tool_call`);
* `src/libs/miroflow/src/miroflow/utils/io_utils.py` — `OutputFormatter`
  (`_extract_boxed_content`, `format_final_summary_and_log`).

Python strings are modelled as `List Char` where positional scanning matters
(the interceptor and the regex matchers) and as `String` elsewhere.  Python
`None` becomes `Option`, an uncaught Python exception becomes `none` in an
`Option`-returning function.
-/

namespace MiroFlow

/-! ## TextInterceptor — src/src/utils/stream_parsing_utils.py

The interceptor state is the pair (fixed token list, mutable `buffer`).
`process` returns the optional emitted text together with the new buffer.
-/

/-- Python `haystack.find(needle)`: index of the first occurrence of `needle`
in `haystack`, `none` when absent (Python returns `-1`). -/
def pyFind (needle : List Char) : List Char → Option Nat
  | [] => if needle.isPrefixOf ([] : List Char) then some 0 else none
  | c :: rest =>
    if needle.isPrefixOf (c :: rest) then some 0
    else (pyFind needle rest).map (· + 1)

/-- Python `needle in haystack`. -/
def containsTok (needle haystack : List Char) : Bool :=
  (pyFind needle haystack).isSome

/-- Loop `for unbreakable in self.unbreakable_strings: if unbreakable in buffer`
— the first token IN LIST ORDER that occurs in the buffer, paired with
`buffer.find(unbreakable)`. -/
def findFirstTokenPos (tokens : List (List Char)) (buf : List Char) : Option Nat :=
  match tokens with
  | [] => none
  | t :: ts =>
    match pyFind t buf with
    | some p => some p
    | none => findFirstTokenPos ts buf

/-- Lines 52-57 of stream_parsing_utils.py: the whole buffer is a strict
prefix of some forbidden token (`unbreakable.startswith(buffer) and
len(buffer) < len(unbreakable)`). -/
def mightBeTokenHead (tokens : List (List Char)) (buf : List Char) : Bool :=
  tokens.any fun t => buf.isPrefixOf t && buf.length < t.length

/-- Lines 84-89: `current_suffix` is a strict prefix of some forbidden token. -/
def dangerousSuffix (tokens : List (List Char)) (s : List Char) : Bool :=
  tokens.any fun t => s.isPrefixOf t && s.length < t.length

/-- Python slice `buf[a:b]`. -/
def pySlice (buf : List Char) (a b : Nat) : List Char :=
  (buf.drop a).take (b - a)

/-- Lines 78-93: the greedy safe-output scan.
`safe_output_end = 0; for i in range(1, len(buffer)+1): if not dangerous
(buffer[safe_output_end:i]): safe_output_end = i`. -/
def scanSafeEnd (tokens : List (List Char)) (buf : List Char) : Nat :=
  (List.range' 1 buf.length).foldl
    (fun safe i => if dangerousSuffix tokens (pySlice buf safe i) then safe else i) 0

/-- Model of `TextInterceptor.process(text, is_last)` (lines 18-103).  Input: the token
list, the current buffer, the new chunk and the `is_last` flag.  Output: the
optional emitted text (`None` ↦ `none`) and the new buffer. -/
def TextInterceptor.process (tokens : List (List Char)) (buffer text : List Char)
    (isLast : Bool) : Option (List Char) × List Char :=
  let buf := buffer ++ text
  if isLast then
    -- lines 33-50: result = buffer; buffer = ""; first token of the list that
    -- occurs decides the cut
    match findFirstTokenPos tokens buf with
    | some pos => if pos > 0 then (some (buf.take pos), []) else (none, [])
    | none => (some buf, [])
  else
    if mightBeTokenHead tokens buf then (none, buf)
    else
      match findFirstTokenPos tokens buf with
      | some pos =>
        if pos > 0 then (some (buf.take pos), buf.drop pos) else (none, buf)
      | none =>
        let safeEnd := scanSafeEnd tokens buf
        if safeEnd = 0 then (none, buf)
        else (some (buf.take safeEnd), buf.drop safeEnd)

/-- Feed a list of chunks to a fresh-buffer interceptor, `is_last = true` on
the final chunk, concatenating everything that is emitted. -/
def TextInterceptor.feed (tokens : List (List Char)) :
    List Char → List (List Char) → List Char
  | _, [] => []
  | buffer, [last] => ((TextInterceptor.process tokens buffer last true).1).getD []
  | buffer, c :: rest =>
    let r := TextInterceptor.process tokens buffer c false
    (r.1.getD []) ++ TextInterceptor.feed tokens r.2 rest

/-- Longest forbidden-token length. -/
def maxTokenLen (tokens : List (List Char)) : Nat :=
  (tokens.map List.length).foldr max 0

/-! ## Chat messages

A history element.  In the source a `user` message carries
`content = [{"type": "text", "text": t}]` and an `assistant` message a plain
string; both collapse to one text field here. -/

structure Message where
  role : String
  text : String
deriving Repr, DecidableEq

/-- One collected tool result `(tool_id, {"type": ctype, "text": text})` as
passed to `update_message_history`. -/
structure ToolResultEntry where
  tool_id : String
  ctype : String
  text : String
deriving Repr, DecidableEq

/-- Python `s.startswith(pre)` (comparison by code points). -/
def pyStartsWith (s pre : String) : Bool := pre.toList.isPrefixOf s.toList

/-- Python `sep.join(parts)`. -/
def pyJoin (sep : String) : List String → String
  | [] => ""
  | [x] => x
  | x :: xs => x ++ sep ++ pyJoin sep xs

/-! ## OpenCodeClient — src/src/llm/providers/opencode_client.py -/

namespace OpenCodeClient

/-- Header when the per-turn tool-call cap was exceeded (line 294). -/
def exceededHeader (k : Nat) : String :=
  "You made too many tool calls. I can only afford to process " ++ toString k
    ++ " valid tool calls in this turn."

/-- Header in the normal multi-call case (line 298). -/
def processedHeader (k : Nat) : String :=
  "I have processed " ++ toString k ++ " valid tool calls in this turn."

/-- Line 302: the per-result section text of a valid tool call. -/
def validSection (i : Nat) (text : String) : String :=
  "Valid tool call " ++ toString i ++ " result:\n" ++ text

/-- Line 305: the per-result section text of a failed tool call. -/
def failedSection (i : Nat) (text : String) : String :=
  "Failed tool call " ++ toString i ++ " result:\n" ++ text

/-- Body of `update_message_history` (lines 271-312): the merged text of the
single synthetic `user` message. -/
def mergedToolResultText (entries : List ToolResultEntry) (exceeded : Bool) : String :=
  let entries := entries.filter (fun e => e.ctype == "text")
  let valid := entries.filter (fun e => e.tool_id != "FAILED")
  let bad := entries.filter (fun e => e.tool_id == "FAILED")
  let total := valid.length + bad.length
  if total > 1 then
    let header := if exceeded then exceededHeader valid.length
                  else processedHeader valid.length
    pyJoin "\n\n"
      (header :: (valid.enum.map (fun p => validSection (p.1 + 1) p.2.text)
        ++ bad.enum.map (fun p => failedSection (p.1 + 1) p.2.text)))
  else
    pyJoin "\n\n" (valid.map (·.text) ++ bad.map (·.text))

/-- Model of `update_message_history` (lines 271-320): append one `user` message whose
text is the merged tool-result block. -/
def update_message_history (history : List Message) (entries : List ToolResultEntry)
    (exceeded : Bool) : List Message :=
  history ++ [⟨"user", mergedToolResultText entries exceeded⟩]

/-- Model of `handle_max_turns_reached_summary_prompt` (lines 322-331): when the last
message is a `user` message, pop it and merge its text into the summary
prompt.  Returns the new history and the prompt.  (On an empty history the
Python indexes `[-1]` and would raise; the orchestrator never calls it so.) -/
def handle_max_turns_reached_summary_prompt (history : List Message)
    (summaryPrompt : String) : List Message × String :=
  match history.getLast? with
  | some m =>
    if m.role == "user" then
      (history.dropLast, m.text ++ "\n\n-----------------\n\n" ++ summaryPrompt)
    else (history, summaryPrompt)
  | none => (history, summaryPrompt)

/-- One choice of an `OpenCodeAPIResponse` (only the message content matters
to the orchestrator). -/
structure APIChoice where
  content : String
deriving Repr, DecidableEq

/-- An `OpenCodeAPIResponse`. -/
structure APIResponse where
  choices : List APIChoice
deriving Repr, DecidableEq

/-- Model of `process_llm_response` (lines 246-265).  `clean` stands for
`_clean_user_content_from_response` (a stdlib-`re` substitution, kept as a
parameter).  Returns `(assistant_text, should_break)` and the new history;
note that a response with a choice appends the assistant message even when
the cleaned text is empty. -/
def process_llm_response (clean : String → String) (resp : Option APIResponse)
    (history : List Message) : String × Bool × List Message :=
  match resp with
  | none => ("", true, history)
  | some r =>
    match r.choices with
    | [] => ("", true, history)
    | c :: _ =>
      let t := clean c.content
      (t, false, history ++ [⟨"assistant", t⟩])

end OpenCodeClient

/-! ## Orchestrator — src/src/core/orchestrator.py -/

namespace Orchestrator

/-- A parsed tool call as consumed by the dispatch loops
(`call["server_name"]`, `call["tool_name"]`, `call["arguments"]`,
`call["id"]`). -/
structure ToolCall where
  server_name : String
  tool_name : String
  arguments : String
  id : String
deriving Repr, DecidableEq

/-- Result of `extract_tool_calls_info` / `parse_llm_response_for_tool_calls`:
the pair (valid calls, malformed-call error messages). -/
structure ParsedCalls where
  valid : List ToolCall
  malformed : List String
deriving Repr, DecidableEq

/-- Third component of the triple returned by `_handle_llm_call_with_logging`:
`None`, the literal string `"context_limit"`, or the parsed tool calls. -/
inductive ToolCallsInfo where
  | noneInfo
  | contextLimit
  | parsed (p : ParsedCalls)
deriving Repr, DecidableEq

/-- What `create_message` did, as observed by the orchestrator round: it
returned (possibly a falsy value), or it raised `asyncio.TimeoutError`, the
distinguishable `ContextLimitError`, or any other exception. -/
inductive CreateMessageOutcome where
  | returned (resp : Option OpenCodeClient.APIResponse)
  | timeoutRaised
  | contextLimitRaised
  | otherRaised
deriving Repr, DecidableEq

/-- Model of `_handle_llm_call_with_logging` (lines 320-464).  `clean` and `parse`
stand for the client text post-processing and the tool-call extraction; the
tracing/streaming side effects are dropped.  Returns the triple
`(response_text, should_break, tool_calls_info)` and the updated history. -/
def handle_llm_call_with_logging (clean : String → String)
    (parse : String → ParsedCalls) (history : List Message)
    (outcome : CreateMessageOutcome) :
    (Option String × Bool × ToolCallsInfo) × List Message :=
  match outcome with
  | .returned resp =>
    match resp with
    | none => ((none, true, .noneInfo), history)
    | some r =>
      let pr := OpenCodeClient.process_llm_response clean (some r) history
      let t := pr.1
      if t != "" then ((some t, pr.2.1, .parsed (parse t)), pr.2.2)
      else ((none, true, .noneInfo), pr.2.2)
  | .timeoutRaised => ((none, true, .noneInfo), history)
  | .contextLimitRaised => ((none, true, .contextLimit), history)
  | .otherRaised => ((none, true, .noneInfo), history)

/-- Line 582: the total-failure sentinel of the summary retry loop. -/
def summaryFailureMsg : String :=
  "[ERROR] Unable to generate final summary due to context limit or network issues. You should try again."

/-- Role of the last message, `false` on an empty history (the Python guards
`if message_history and message_history[-1]["role"] == r`). -/
def lastRoleIs (history : List Message) (role : String) : Bool :=
  match history.getLast? with
  | some m => m.role == role
  | none => false

/-- Inner retry loop of `_handle_summary_with_context_limit_retry`
(lines 517-542): up to five attempts, breaking on a truthy `response_text` or
on `tool_calls_info == "context_limit"`.  `oracle` assigns each global
attempt index its `create_message` outcome.  Returns `response_text`, the
history after the attempts, and the next attempt index. -/
def innerSummaryAttempts (clean : String → String) (parse : String → ParsedCalls)
    (oracle : Nat → CreateMessageOutcome) :
    Nat → Nat → List Message → Option String × List Message × Nat
  | 0, idx, h => (none, h, idx)
  | n + 1, idx, h =>
    let r := handle_llm_call_with_logging clean parse h (oracle idx)
    let rt := r.1.1
    if rt.isSome || r.1.2.2 == ToolCallsInfo.contextLimit then (rt, r.2, idx + 1)
    else innerSummaryAttempts clean parse oracle n (idx + 1) r.2

/-- Model of `_handle_summary_with_context_limit_retry` (lines 466-582).  `mkPrompt`
stands for `generate_summarize_prompt`, which sees the current `task_failed`
flag.  `fuel` bounds the outer `while True` loop: `none` means the loop was
still running after `fuel` iterations (the Python has no bound). -/
def handle_summary_with_context_limit_retry (clean : String → String)
    (parse : String → ParsedCalls) (oracle : Nat → CreateMessageOutcome)
    (mkPrompt : Bool → String) :
    Nat → Nat → Bool → List Message → Option String
  | 0, _, _, _ => none
  | fuel + 1, idx, taskFailed, history =>
    let hp := OpenCodeClient.handle_max_turns_reached_summary_prompt history
      (mkPrompt taskFailed)
    let h2 := hp.1 ++ [⟨"user", hp.2⟩]
    let r := innerSummaryAttempts clean parse oracle 5 idx h2
    match r.1 with
    | some t => some t
    | none =>
      let h3 := r.2.1
      let h4 := if lastRoleIs h3 "user" then h3.dropLast else h3
      let h5 := if lastRoleIs h4 "assistant" then h4.dropLast else h4
      if h5.length ≤ 2 then some summaryFailureMsg
      else
        handle_summary_with_context_limit_retry clean parse oracle mkPrompt
          fuel r.2.2 true h5

/-- A client that always returns a response whose assistant text is empty —
opencode_client.py lines 214-228 produce exactly this shape when the provider
streams no text and finishes with reason `stop` (only a warning is logged).
Every such attempt counts as a failed summary call. -/
def emptyResponseOracle : Nat → CreateMessageOutcome :=
  fun _ => .returned (some ⟨[⟨""⟩]⟩)

/-- The assistant message `process_llm_response` appends for an empty
response text. -/
def emptyAsst : Message := ⟨"assistant", ""⟩

/-- Where a dispatched call is sent. -/
inductive Executor where
  | subAgentInvoker
  | toolManagerExec
deriving Repr, DecidableEq

/-- Per-call dispatch of the main agent loop (`run_main_agent`,
lines 1088-1124): `if server_name.startswith("agent-")` the call goes to
`run_sub_agent`, otherwise to `main_agent_tool_manager.execute_tool_call`. -/
def mainLoopDispatch (call : ToolCall) : Executor :=
  if pyStartsWith call.server_name "agent-" then .subAgentInvoker
  else .toolManagerExec

/-- Per-call dispatch of the sub-agent loop (`run_sub_agent`,
lines 723-745): every selected call is passed to
`sub_agent_tool_managers[name].execute_tool_call`; there is no
`agent-` branch. -/
def subLoopDispatch (_call : ToolCall) : Executor := .toolManagerExec

end Orchestrator

/-! ## Python JSON values

Model of the values handled by the stdlib `json` module inside
`Orchestrator.get_scrape_result`.  Numbers are kept as integers (the scrape
results in question never branch on float-ness). -/

inductive PyJson where
  | null
  | bool (b : Bool)
  | num (n : Int)
  | str (s : String)
  | arr (xs : List PyJson)
  | obj (kvs : List (String × PyJson))

namespace PyJson

/-- Lowercase hex digit. -/
def hexDigit (n : Nat) : String :=
  String.singleton (if n < 10 then Char.ofNat (48 + n) else Char.ofNat (87 + n))

/-- Escaping of one character as done by `json.dumps(..., ensure_ascii=False)`:
quote, backslash and control characters only. -/
def escChar (c : Char) : String :=
  if c = '"' then "\\\""
  else if c = '\\' then "\\\\"
  else if c = Char.ofNat 10 then "\\n"
  else if c = Char.ofNat 9 then "\\t"
  else if c = Char.ofNat 13 then "\\r"
  else if c = Char.ofNat 8 then "\\b"
  else if c = Char.ofNat 12 then "\\f"
  else if c.toNat < 32 then "\\u00" ++ hexDigit (c.toNat / 16) ++ hexDigit (c.toNat % 16)
  else String.singleton c

/-- A JSON string literal. -/
def quote (s : String) : String :=
  "\"" ++ String.join (s.toList.map escChar) ++ "\""

mutual

/-- Serialization as by `json.dumps(v, ensure_ascii=False)` with the default separators. -/
def dumps : PyJson → String
  | .null => "null"
  | .bool true => "true"
  | .bool false => "false"
  | .num n => toString n
  | .str s => quote s
  | .arr xs => "[" ++ dumpsList xs ++ "]"
  | .obj kvs => "\x7b" ++ dumpsObj kvs ++ "\x7d"

/-- Comma-separated array elements. -/
def dumpsList : List PyJson → String
  | [] => ""
  | [x] => dumps x
  | x :: y :: xs => dumps x ++ ", " ++ dumpsList (y :: xs)

/-- Comma-separated object members. -/
def dumpsObj : List (String × PyJson) → String
  | [] => ""
  | [(k, v)] => quote k ++ ": " ++ dumps v
  | (k, v) :: m :: kvs => quote k ++ ": " ++ dumps v ++ ", " ++ dumpsObj (m :: kvs)

end

/-- Python `dict.get(k)` on a parsed JSON object (parsed dicts have unique
keys, so first-match lookup is exact). -/
def pyGet (kvs : List (String × PyJson)) (k : String) : Option PyJson :=
  (kvs.find? (fun p => p.1 == k)).map (·.2)

/-- Python truthiness of a JSON value. -/
def pyTruthy : PyJson → Bool
  | .null => false
  | .bool b => b
  | .num n => n != 0
  | .str s => s != ""
  | .arr xs => !xs.isEmpty
  | .obj kvs => !kvs.isEmpty

/-- Python `len(v)`: defined for strings, lists and dicts, a `TypeError`
(`none`) otherwise. -/
def pyLen : PyJson → Option Nat
  | .str s => some s.length
  | .arr xs => some xs.length
  | .obj kvs => some kvs.length
  | _ => none

/-- Python string slice `s[:n]` (by code points). -/
def pyTake (s : String) (n : Nat) : String := String.mk (s.toList.take n)

/-- Python slice `v[:n]`: defined for strings and lists, a `TypeError`
(`none`) otherwise. -/
def pySliceTo (v : PyJson) (n : Nat) : Option PyJson :=
  match v with
  | .str s => some (.str (pyTake s n))
  | .arr xs => some (.arr (xs.take n))
  | _ => none

end PyJson

namespace Orchestrator

/-- Constant `SCRAPE_MAX_LENGTH` (orchestrator.py line 38, default, overridable by an
environment variable of the same name). -/
def SCRAPE_MAX_LENGTH : Nat := 20000

/-- Model of `get_scrape_result` (lines 298-311).  `parsed` is the outcome of the
stdlib call `json.loads(result)` (`none` = `json.JSONDecodeError`).  The
result is `none` when the Python raises an uncaught exception
(`AttributeError` from `.get` on a non-dict, `TypeError` from `len`/slicing
on an unsized or unsliceable truthy text value). -/
def get_scrape_result (parsed : Option PyJson) (result : String) : Option String :=
  match parsed with
  | some j =>
    match j with
    | .obj kvs =>
      let text := (PyJson.pyGet kvs "text").getD .null
      if PyJson.pyTruthy text then
        match PyJson.pyLen text with
        | none => none
        | some n =>
          if n > SCRAPE_MAX_LENGTH then
            match PyJson.pySliceTo text SCRAPE_MAX_LENGTH with
            | none => none
            | some t2 => some (PyJson.dumps (.obj [("text", t2)]))
          else some (PyJson.dumps (.obj [("text", text)]))
      else some (PyJson.dumps (.obj [("text", text)]))
    | _ => none
  | none =>
    some (if result.length > SCRAPE_MAX_LENGTH then PyJson.pyTake result SCRAPE_MAX_LENGTH
          else result)

/-- A tool-call result dict as built by `execute_tool_call` — exactly one of
`result` / `error` is set in practice; presence of the `result` key is what
`post_process_tool_call_result` tests. -/
structure ToolCallResult where
  server_name : String
  tool_name : String
  result : Option String
  error : Option String
deriving Repr, DecidableEq

/-- Model of `post_process_tool_call_result` (lines 313-317): only a present `result`
of the tool named `scrape` is rewritten.  `parsed` is the `json.loads`
outcome for the result string; `none` output = uncaught exception. -/
def post_process_tool_call_result (tool_name : String) (parsed : Option PyJson)
    (tcr : ToolCallResult) : Option ToolCallResult :=
  match tcr.result, tool_name == "scrape" with
  | some r, true =>
    (get_scrape_result parsed r).map (fun r2 => { tcr with result := some r2 })
  | _, _ => some tcr

end Orchestrator

/-! ## ToolManager — src/libs/miroflow-tool/src/miroflow/tool/manager.py -/

namespace ToolManager

/-- An apostrophe (U+0027), used inside several literal messages. -/
def sq : String := String.singleton (Char.ofNat 39)

/-- ASCII whitespace, the characters Python `str.strip()` removes (the
unicode extras never occur in the texts at issue). -/
def isPySpace (c : Char) : Bool :=
  c = ' ' || c = Char.ofNat 9 || c = Char.ofNat 10 || c = Char.ofNat 13
    || c = Char.ofNat 11 || c = Char.ofNat 12

/-- Python `s.strip()`. -/
def pyStrip (s : String) : String :=
  String.mk (((s.toList.dropWhile isPySpace).reverse.dropWhile isPySpace).reverse)

/-- Python `needle in haystack` on strings. -/
def strContains (needle haystack : String) : Bool :=
  MiroFlow.containsTok needle.toList haystack.toList

/-- Model of `_is_huggingface_dataset_or_space_url` (lines 67-75). -/
def is_huggingface_dataset_or_space_url (url : String) : Bool :=
  if url == "" then false
  else strContains "huggingface.co/datasets" url
    || strContains "huggingface.co/spaces" url

/-- Model of `_should_block_hf_scraping` (lines 77-88): the tool is `scrape` and
`arguments.get("url")` is truthy and refers to a restricted host.  `urlArg`
is `arguments.get("url")` (`none` = key absent or `None`). -/
def should_block_hf_scraping (tool_name : String) (urlArg : Option String) : Bool :=
  tool_name == "scrape"
    && (match urlArg with
        | some u => u != "" && is_huggingface_dataset_or_space_url u
        | none => false)

/-- Line 309 / 350: result text for a present but blank `text` field. -/
def emptyTextMsg (tool_name : String) : String :=
  "Tool " ++ sq ++ tool_name ++ sq
    ++ " completed but returned empty text - this may be expected or indicate an issue"

/-- Line 311 / 352: result text for an empty content list. -/
def noContentMsg (tool_name : String) : String :=
  "Tool " ++ sq ++ tool_name ++ sq
    ++ " completed but returned no content - this may be expected or indicate an issue"

/-- Line 321 / 362: the policy-refusal text substituted post hoc for blocked
Hugging Face scrapes. -/
def hfBlockMsg : String :=
  "You are trying to scrape a Hugging Face dataset for answers, please do not use the scrape tool for this purpose."

/-- Line 249: the server-not-found error text. -/
def serverNotFoundMsg (server_name : String) : String :=
  "Server " ++ sq ++ server_name ++ sq ++ " not found."

/-- What `session.call_tool` did: raised, or returned a content list whose
items carry an optional `.text`. -/
inductive SessionCallOutcome where
  | callRaises (msg : String)
  | callReturns (content : List (Option String))
deriving Repr, DecidableEq

/-- The dict returned by `execute_tool_call`, extended with the ghost
observation `contacted`: whether `session.call_tool` was invoked at all. -/
structure ExecToolResult where
  server_name : String
  tool_name : String
  result : Option String
  error : Option String
  contacted : Bool
deriving Repr, DecidableEq

/-- Model of `execute_tool_call` (lines 232-381), stdio/sse branch — the branch every
`scrape` call takes (the two sub-branches at lines 290-328 and 329-369 are
textually identical; the `playwright` branch at 256-286 and the
`MarkItDown` fallback of the outer handler at 383-425 concern other tools
and connection failures and are outside the cited region).  `serverFound`
is `get_server_params(server_name) is not None`; `urlArg` is
`arguments.get("url")`. -/
def execute_tool_call (serverFound : Bool) (server_name tool_name : String)
    (urlArg : Option String) (outcome : SessionCallOutcome) : ExecToolResult :=
  if !serverFound then
    ⟨server_name, tool_name, none, some (serverNotFoundMsg server_name), false⟩
  else
    match outcome with
    | .callRaises msg =>
      ⟨server_name, tool_name, none, some ("Tool execution failed: " ++ msg), true⟩
    | .callReturns content =>
      let rc :=
        match content.getLast? with
        | none => noContentMsg tool_name
        | some item =>
          match item with
          | some t => if pyStrip t != "" then t else emptyTextMsg tool_name
          | none => emptyTextMsg tool_name
      let rc2 := if should_block_hf_scraping tool_name urlArg then hfBlockMsg else rc
      ⟨server_name, tool_name, some rc2, none, true⟩

end ToolManager

/-! ## OutputFormatter — src/libs/miroflow/src/miroflow/utils/io_utils.py

The two regexes of `_extract_boxed_content` are embedded as deterministic
scanners (neither pattern needs backtracking beyond its committed literal
head, see the derivation in the lemmas below):

* primary `\\boxed\{([^{}]*(?:\{[^{}]*\}[^{}]*)*)\}` — after the literal
  `\boxed{`, the content is read at brace depth 0/1 and is closed by the
  first `}` met at depth 0; a second-level `{` aborts the attempt;
* fallback `\\boxed\{([^}]+)\}` — at least one character up to the first
  `}` after the literal.

`re.findall` scans left to right, resuming after each match (after the next
character when an attempt at an occurrence of the literal fails). -/

namespace OutputFormatter

/-- The literal `\boxed{` that heads both patterns. -/
def boxedLit : List Char := '\\' :: ('b' :: ('o' :: ('x' :: ('e' :: ('d' :: ['{'])))))

/-- Content scanner of the primary pattern.  `depth1` is true inside a
one-level `{…}` group; `acc` holds the reversed content read so far. -/
def scanNested (depth1 : Bool) (acc : List Char) : List Char → Option (List Char × List Char)
  | [] => none
  | c :: rest =>
    if depth1 then
      if c = '}' then scanNested false (c :: acc) rest
      else if c = '{' then none
      else scanNested true (c :: acc) rest
    else
      if c = '}' then some (acc.reverse, rest)
      else if c = '{' then scanNested true (c :: acc) rest
      else scanNested false (c :: acc) rest

/-- Content scanner of the fallback pattern: `[^}]+` then `}`. -/
def scanFlat (acc : List Char) : List Char → Option (List Char × List Char)
  | [] => none
  | c :: rest =>
    if c = '}' then (if acc.isEmpty then none else some (acc.reverse, rest))
    else scanFlat (c :: acc) rest

/-- Driver for `re.findall` over a content scanner, with fuel (the input length
suffices: every step consumes at least one character). -/
def findAllWith (scan : List Char → Option (List Char × List Char)) :
    Nat → List Char → List (List Char)
  | 0, _ => []
  | _ + 1, [] => []
  | fuel + 1, s@(_ :: rest) =>
    if boxedLit.isPrefixOf s then
      match scan (s.drop 7) with
      | some (content, rest2) => content :: findAllWith scan fuel rest2
      | none => findAllWith scan fuel rest
    else findAllWith scan fuel rest

/-- Result of `re.findall(primary_pattern, text)`. -/
def primaryMatches (text : List Char) : List (List Char) :=
  findAllWith (scanNested false []) text.length text

/-- Result of `re.findall(fallback_pattern, text)`. -/
def fallbackMatches (text : List Char) : List (List Char) :=
  findAllWith (scanFlat []) text.length text

/-- Model of `_extract_boxed_content` (lines 67-85): last primary match, else last
fallback match, else the empty string; an empty input short-circuits. -/
def extract_boxed_content (text : String) : String :=
  if text == "" then ""
  else
    let ms := primaryMatches text.toList
    let ms2 := if ms.isEmpty then fallbackMatches text.toList else ms
    match ms2.getLast? with
    | some m => String.mk m
    | none => ""

/-- Line 129: replacement answer for a nonempty summary without boxed
content. -/
def noBoxedMsg : String :=
  "Final response is generated by LLM, but no \\boxed\x7b\x7d content found."

/-- Line 133: sentinel for an empty summary. -/
def noAnswerMsg : String := "No final answer generated."

/-- The `boxed_result` component of `format_final_summary_and_log`
(lines 112-146): the extracted content when nonempty; otherwise the
`noBoxedMsg` replacement for a truthy summary and the `noAnswerMsg`
sentinel for an empty one. -/
def format_final_summary_boxed (final_answer_text : String) : String :=
  let b := extract_boxed_content final_answer_text
  if b != "" then b
  else if final_answer_text != "" then noBoxedMsg
  else noAnswerMsg

end OutputFormatter

/-! ## Theorems -/

open Orchestrator OpenCodeClient OutputFormatter

/-- Filtering on `type == "text"` keeps a list whose entries are all
text-typed. -/
theorem filter_text_of_all (entries : List ToolResultEntry)
    (hall : ∀ e ∈ entries, e.ctype = "text") :
    entries.filter (fun e => e.ctype == "text") = entries := by
  induction entries with
  | nil => rfl
  | cons a l ih =>
    have ha : a.ctype = "text" := hall a (by simp)
    have hl : ∀ e ∈ l, e.ctype = "text" := fun e he => hall e (by simp [he])
    simp [List.filter_cons, ha, ih hl]

/-- The `FAILED` / non-`FAILED` partition covers the list. -/
theorem length_failed_partition (entries : List ToolResultEntry) :
    (entries.filter (fun e => e.tool_id != "FAILED")).length
      + (entries.filter (fun e => e.tool_id == "FAILED")).length
      = entries.length := by
  induction entries with
  | nil => rfl
  | cons a l ih =>
    by_cases h : a.tool_id = "FAILED" <;>
      simp [List.filter_cons, h] <;> omega

/-- Joining a nonempty list begins with its head. -/
theorem pyJoin_head_pre (sep x : String) (xs : List String) :
    ∃ r, pyJoin sep (x :: xs) = x ++ r := by
  cases xs with
  | nil => exact ⟨"", by simp [pyJoin]⟩
  | cons y ys =>
    refine ⟨sep ++ pyJoin sep (y :: ys), ?_⟩
    show x ++ sep ++ pyJoin sep (y :: ys) = x ++ (sep ++ pyJoin sep (y :: ys))
    rw [String.append_assoc]

/-- A found needle is a prefix of the haystack dropped at the found
position. -/
theorem pyFind_isPrefixOf_drop (needle : List Char) :
    ∀ (hay : List Char) (p : Nat), pyFind needle hay = some p →
      needle.isPrefixOf (hay.drop p) = true := by
  intro hay
  induction hay with
  | nil =>
    intro p hp
    by_cases h : needle.isPrefixOf ([] : List Char) = true
    · simp only [pyFind, h, if_true, Option.some.injEq] at hp
      subst hp
      simpa using h
    · simp only [pyFind] at hp
      rw [if_neg (by simpa using h)] at hp
      exact absurd hp (by simp)
  | cons c rest ih =>
    intro p hp
    by_cases h : needle.isPrefixOf (c :: rest) = true
    · simp only [pyFind, h, if_true, Option.some.injEq] at hp
      subst hp
      simpa using h
    · simp only [pyFind] at hp
      rw [if_neg (by simpa using h)] at hp
      rcases Option.map_eq_some'.mp hp with ⟨q, hq, rfl⟩
      simpa using ih q hq

/-- A prefix occurs at position 0, so it is contained. -/
theorem containsTok_of_isPrefixOf (needle hay : List Char)
    (h : needle.isPrefixOf hay = true) : containsTok needle hay = true := by
  cases hay with
  | nil => simp [containsTok, pyFind, h]
  | cons c rest => simp [containsTok, pyFind, h]

/-- The position reported by `findFirstTokenPos` is the `find` position of
one of the tokens. -/
theorem findFirstTokenPos_exists (tokens : List (List Char)) (buf : List Char)
    (p : Nat) (h : findFirstTokenPos tokens buf = some p) :
    ∃ t ∈ tokens, pyFind t buf = some p := by
  induction tokens with
  | nil => exact absurd h (by simp [findFirstTokenPos])
  | cons t ts ih =>
    simp only [findFirstTokenPos] at h
    cases hf : pyFind t buf with
    | some q =>
      rw [hf] at h
      exact ⟨t, by simp, by rw [hf]; simpa using h⟩
    | none =>
      rw [hf] at h
      obtain ⟨u, hu, hfu⟩ := ih h
      exact ⟨u, by simp [hu], hfu⟩

/-- Every token is at most as long as the longest one. -/
theorem mem_le_maxTokenLen (tokens : List (List Char)) (t : List Char)
    (h : t ∈ tokens) : t.length ≤ maxTokenLen tokens := by
  induction tokens with
  | nil => cases h
  | cons u us ih =>
    rcases List.mem_cons.mp h with rfl | h
    · exact le_max_left _ _
    · exact le_trans (ih h) (le_max_right _ _)

/-- A dangerous suffix is strictly shorter than the longest token. -/
theorem dangerousSuffix_len (tokens : List (List Char)) (s : List Char)
    (h : dangerousSuffix tokens s = true) :
    s.length ≤ maxTokenLen tokens - 1 := by
  obtain ⟨t, ht, hts⟩ := List.any_eq_true.mp h
  have h2 := Bool.and_eq_true_iff.mp hts
  have hlt : s.length < t.length := by simpa using h2.2
  have := mem_le_maxTokenLen tokens t ht
  omega

/-- The safe-scan fold never exceeds a bound dominating its seed and its
index list. -/
theorem foldl_safe_le (tokens : List (List Char)) (buf : List Char) (n : Nat) :
    ∀ (l : List Nat) (init : Nat), init ≤ n → (∀ i ∈ l, i ≤ n) →
      l.foldl (fun safe i =>
        if dangerousSuffix tokens (pySlice buf safe i) then safe else i) init ≤ n := by
  intro l
  induction l with
  | nil => intro init h _; simpa using h
  | cons a l ih =>
    intro init h hall
    simp only [List.foldl_cons]
    by_cases hd : dangerousSuffix tokens (pySlice buf init a) = true
    · rw [if_pos hd]
      exact ih init h (fun i hi => hall i (by simp [hi]))
    · rw [if_neg hd]
      exact ih a (hall a (by simp)) (fun i hi => hall i (by simp [hi]))

/-- The scan result stays within the buffer. -/
theorem scanSafeEnd_le (tokens : List (List Char)) (buf : List Char) :
    scanSafeEnd tokens buf ≤ buf.length := by
  unfold scanSafeEnd
  refine foldl_safe_le tokens buf buf.length _ 0 (Nat.zero_le _) ?_
  intro i hi
  have := List.mem_range'.mp hi
  omega

/-- After the scan, either everything is safe to emit or the retained suffix
is dangerous. -/
theorem scanSafeEnd_final (tokens : List (List Char)) (buf : List Char) :
    scanSafeEnd tokens buf = buf.length
    ∨ dangerousSuffix tokens (buf.drop (scanSafeEnd tokens buf)) = true := by
  cases hb : buf.length with
  | zero =>
    left
    unfold scanSafeEnd
    rw [hb]
    rfl
  | succ m =>
    unfold scanSafeEnd
    rw [hb, List.range'_concat, List.foldl_append]
    set prev := (List.range' 1 m).foldl
      (fun safe i =>
        if dangerousSuffix tokens (pySlice buf safe i) then safe else i) 0 with hprev
    have hple : prev ≤ m := by
      rw [hprev]
      refine foldl_safe_le tokens buf m _ 0 (Nat.zero_le _) ?_
      intro i hi
      have := List.mem_range'.mp hi
      omega
    simp only [List.foldl_cons, List.foldl_nil, one_mul]
    by_cases hd : dangerousSuffix tokens (pySlice buf prev (1 + m)) = true
    · right
      rw [if_pos hd]
      have hslice : pySlice buf prev (1 + m) = buf.drop prev := by
        unfold pySlice
        have hlen : (buf.drop prev).length = 1 + m - prev := by
          rw [List.length_drop, hb]; omega
        rw [← hlen, List.take_length]
      rwa [hslice] at hd
    · left
      rw [if_neg hd]
      omega

/-- Evaluation of `get_scrape_result` on a parsed object with an absent or null `text`
member. -/
theorem get_scrape_result_obj_null (kvs : List (String × PyJson)) (raw : String)
    (h : PyJson.pyGet kvs "text" = none ∨ PyJson.pyGet kvs "text" = some .null) :
    get_scrape_result (some (.obj kvs)) raw
      = some (PyJson.dumps (.obj [("text", .null)])) := by
  rcases h with h | h <;> simp [get_scrape_result, h, PyJson.pyTruthy]

/-- Evaluation of `get_scrape_result` on a parsed object with a string `text` member:
the text is truncated to `SCRAPE_MAX_LENGTH` code points when longer and kept
verbatim otherwise. -/
theorem get_scrape_result_obj_str (kvs : List (String × PyJson)) (raw s : String)
    (h : PyJson.pyGet kvs "text" = some (.str s)) :
    get_scrape_result (some (.obj kvs)) raw
      = some (PyJson.dumps (.obj [("text",
          .str (if s.length > SCRAPE_MAX_LENGTH then PyJson.pyTake s SCRAPE_MAX_LENGTH
                else s))])) := by
  by_cases hs : s = ""
  · subst hs
    simp [get_scrape_result, h, PyJson.pyTruthy, SCRAPE_MAX_LENGTH]
  · by_cases hl : s.length > SCRAPE_MAX_LENGTH <;>
      simp [get_scrape_result, h, PyJson.pyTruthy, PyJson.pyLen, PyJson.pySliceTo, hs, hl]

/-- Truncation really bounds the length (`pyTake` yields at most `n` code
points). -/
theorem pyTake_length_le (s : String) (n : Nat) :
    (PyJson.pyTake s n).length ≤ n := by
  show (s.toList.take n).length ≤ n
  simp [List.length_take]

/-- The length of `s[:n] if len(s) > n else s` is at most `n`. -/
theorem trunc_length_le (s : String) (n : Nat) :
    (if s.length > n then PyJson.pyTake s n else s).length ≤ n := by
  by_cases h : s.length > n
  · simpa [h] using pyTake_length_le s n
  · simpa [h] using Nat.le_of_not_lt h

/-- C1 counterexample.  The claim quantifies over both agent loops; in the
sub-agent loop (`run_sub_agent`, lines 723-745) a dispatched call whose
`server_name` is `agent-browsing` is passed to the `execute_tool_call` of the
sub-agent tool manager all the same. -/
theorem c1_counterexample :
    subLoopDispatch ⟨"agent-browsing", "execute_subtask", "find X", "call_1"⟩
      = Executor.toolManagerExec
    ∧ pyStartsWith "agent-browsing" "agent-" = true := by
  constructor
  · rfl
  · decide

/-- C1 (amended): in the MAIN agent loop, every dispatched tool call whose
`server_name` begins with `agent-` is routed to `run_sub_agent` and never to
the `execute_tool_call` of the tool manager; the sub-agent loop routes every call,
`agent-*` included, to its tool manager. -/
theorem c1_main_loop_agent_dispatch (call : ToolCall)
    (h : pyStartsWith call.server_name "agent-" = true) :
    mainLoopDispatch call = Executor.subAgentInvoker
    ∧ mainLoopDispatch call ≠ Executor.toolManagerExec
    ∧ subLoopDispatch call = Executor.toolManagerExec := by
  refine ⟨?_, ?_, rfl⟩ <;> simp [mainLoopDispatch, h]

/-- C1 witness: the amended dispatch theorem at a concrete call. -/
theorem c1_main_loop_agent_dispatch_witness :
    mainLoopDispatch ⟨"agent-browsing", "execute_subtask", "find X", "call_1"⟩
      = Executor.subAgentInvoker
    ∧ mainLoopDispatch ⟨"agent-browsing", "execute_subtask", "find X", "call_1"⟩
      ≠ Executor.toolManagerExec
    ∧ subLoopDispatch ⟨"agent-browsing", "execute_subtask", "find X", "call_1"⟩
      = Executor.toolManagerExec :=
  c1_main_loop_agent_dispatch ⟨"agent-browsing", "execute_subtask", "find X", "call_1"⟩
    (by decide)

/-- C6: the interceptor is NOT chunking-invariant, contradicting the round-trip
law of the spec and the stated purpose of the module: with forbidden token
`abc`, feeding `aab` then `c` emits `aabc` — the forbidden token reaches the
output — while the whole string at once emits only `a`.  The greedy safe-scan
(lines 78-93) advances past the dangerous suffix `ab` of `aab` because it
only examines suffixes that start at the previous safe cut. -/
theorem c6_chunking_dependence :
    TextInterceptor.feed ["abc".toList] [] ["aab".toList, "c".toList] = "aabc".toList
    ∧ TextInterceptor.feed ["abc".toList] [] ["aabc".toList] = "a".toList
    ∧ containsTok "abc".toList
        (TextInterceptor.feed ["abc".toList] [] ["aab".toList, "c".toList]) = true := by
  refine ⟨by decide, by decide, by decide⟩

/-- C9 counterexample: one `is_last=false` call can leave the buffer longer
than (longest forbidden token − 1): with token `ab` and chunk `abc` the whole
chunk (3 characters) is withheld, while the bound would be 1. -/
theorem c9_counterexample :
    (TextInterceptor.process ["ab".toList] [] "abc".toList false).2.length = 3
    ∧ maxTokenLen ["ab".toList] - 1 = 1 := by
  refine ⟨by decide, by decide⟩

/-- C9 (amended): after every `is_last=false` call, either the buffer
contains a forbidden token — the post-token remainder is withheld until the
final flush and can be arbitrarily long — or the buffer holds at most
(longest forbidden token − 1) characters. -/
theorem c9_buffer_bound (tokens : List (List Char)) (buffer text : List Char) :
    tokens.any (fun t =>
        containsTok t (TextInterceptor.process tokens buffer text false).2) = true
    ∨ (TextInterceptor.process tokens buffer text false).2.length
        ≤ maxTokenLen tokens - 1 := by
  unfold TextInterceptor.process
  simp only [Bool.false_eq_true, if_false]
  set buf := buffer ++ text with hbuf
  by_cases hm : mightBeTokenHead tokens buf = true
  · right
    rw [if_pos hm]
    obtain ⟨t, ht, h2⟩ := List.any_eq_true.mp hm
    have h3 := Bool.and_eq_true_iff.mp h2
    have hle := mem_le_maxTokenLen tokens t ht
    have hlt : buf.length < t.length := by simpa using h3.2
    simp only []
    omega
  · rw [if_neg hm]
    cases hf : findFirstTokenPos tokens buf with
    | some pos =>
      obtain ⟨t, ht, hfind⟩ := findFirstTokenPos_exists tokens buf pos hf
      have hpre := pyFind_isPrefixOf_drop t buf pos hfind
      left
      dsimp only
      by_cases hp : pos > 0
      · rw [if_pos hp]
        refine List.any_eq_true.mpr ⟨t, ht, ?_⟩
        simpa using containsTok_of_isPrefixOf _ _ hpre
      · rw [if_neg hp]
        have hp0 : pos = 0 := by omega
        subst hp0
        refine List.any_eq_true.mpr ⟨t, ht, ?_⟩
        simpa using containsTok_of_isPrefixOf _ _ (by simpa using hpre)
    | none =>
      right
      dsimp only
      rcases scanSafeEnd_final tokens buf with hend | hdang
      · by_cases hz : scanSafeEnd tokens buf = 0
        · rw [if_pos hz]
          have : buf.length = 0 := by omega
          simp only []
          omega
        · rw [if_neg hz]
          simp only []
          rw [hend]
          simp
      · by_cases hz : scanSafeEnd tokens buf = 0
        · rw [if_pos hz]
          have h4 := dangerousSuffix_len tokens _ hdang
          rw [hz] at h4
          simp only [List.drop_zero] at h4
          simpa using h4
        · rw [if_neg hz]
          have h4 := dangerousSuffix_len tokens _ hdang
          simpa using h4

/-- One inner summary attempt against the empty-response client fails and
appends one empty assistant message. -/
theorem innerSummaryAttempts_emptyStep (parse : String → ParsedCalls)
    (n idx : Nat) (h : List Message) :
    innerSummaryAttempts id parse emptyResponseOracle (n + 1) idx h
      = innerSummaryAttempts id parse emptyResponseOracle n (idx + 1)
          (h ++ [emptyAsst]) := rfl

/-- Five inner attempts against the empty-response client fail, appending
five empty assistant messages. -/
theorem innerSummaryAttempts_empty (parse : String → ParsedCalls)
    (idx : Nat) (h : List Message) :
    innerSummaryAttempts id parse emptyResponseOracle 5 idx h
      = (none,
          ((((h ++ [emptyAsst]) ++ [emptyAsst]) ++ [emptyAsst]) ++ [emptyAsst])
            ++ [emptyAsst],
          idx + 5) := rfl

/-- C3: the summary retry loop does NOT always return the error sentinel when
every attempt fails.  Against a client that keeps returning responses with an
empty assistant text, every inner attempt appends an empty assistant message
to the history, the pop step afterwards only removes one of them, and the
history GROWS by four messages per outer iteration — the `len ≤ 2` exit is
never reached, so the loop never returns, whatever the starting history:
for every iteration bound the fuel-indexed model is still running. -/
theorem c3_summary_retry_nontermination (parse : String → ParsedCalls)
    (mkPrompt : Bool → String) (fuel : Nat) :
    ∀ (idx : Nat) (taskFailed : Bool) (history : List Message),
      handle_summary_with_context_limit_retry id parse emptyResponseOracle mkPrompt
        fuel idx taskFailed history = none := by
  induction fuel with
  | zero => intro idx tf h; rfl
  | succ n ih =>
    intro idx tf h
    simp only [handle_summary_with_context_limit_retry]
    rw [innerSummaryAttempts_empty]
    have h1 : ∀ l : List Message, lastRoleIs (l ++ [emptyAsst]) "user" = false := by
      intro l
      simp [lastRoleIs, List.getLast?_concat, emptyAsst]
    have h2 : ∀ l : List Message, lastRoleIs (l ++ [emptyAsst]) "assistant" = true := by
      intro l
      simp [lastRoleIs, List.getLast?_concat, emptyAsst]
    simp only [h1, h2, Bool.false_eq_true, if_false, if_true, List.dropLast_concat]
    rw [if_neg (by
      simp only [List.length_append, List.length_cons, List.length_nil]
      omega)]
    exact ih (idx + 5) true _

/-- C10 counterexample: a scrape result string that parses as non-object JSON
(`"hello"`) makes `get_scrape_result` raise `AttributeError` instead of
producing a `{"text": …}` replacement, and an object whose `text` member is
`true` makes it raise `TypeError` from `len(text)` (`none` models the
uncaught exception). -/
theorem c10_counterexample :
    get_scrape_result (some (.str "hello")) "\"hello\"" = none
    ∧ get_scrape_result (some (.obj [("text", .bool true)])) "\x7b\"text\": true\x7d"
      = none := by
  exact ⟨rfl, rfl⟩

/-- C10 (amended): for every scrape result string that parses as a JSON
OBJECT whose `text` member is absent, `null`, or a string, post-processing
replaces the result with the serialization of an object holding only the
`text` key — every other key is discarded, a missing or null `text` yields
`{"text": null}` — and this happens even when the text is within the length
limit (the `else` branch serializes the untouched text). -/
theorem c10_scrape_json_normalization (kvs : List (String × PyJson)) (raw : String) :
    (PyJson.pyGet kvs "text" = none ∨ PyJson.pyGet kvs "text" = some .null →
      get_scrape_result (some (.obj kvs)) raw
        = some (PyJson.dumps (.obj [("text", .null)])))
    ∧ (∀ s, PyJson.pyGet kvs "text" = some (.str s) →
      get_scrape_result (some (.obj kvs)) raw
        = some (PyJson.dumps (.obj [("text",
            .str (if s.length > SCRAPE_MAX_LENGTH then PyJson.pyTake s SCRAPE_MAX_LENGTH
                  else s))]))) := by
  constructor
  · rintro (h | h) <;>
      simp [get_scrape_result, h, PyJson.pyTruthy]
  · intro s h
    by_cases hs : s = ""
    · subst hs
      simp [get_scrape_result, h, PyJson.pyTruthy, SCRAPE_MAX_LENGTH]
    · by_cases hl : s.length > SCRAPE_MAX_LENGTH <;>
        simp [get_scrape_result, h, PyJson.pyTruthy, PyJson.pyLen, PyJson.pySliceTo, hs, hl]

/-- C7 counterexample.  A successful `scrape` call against
`https://huggingface.co/datasets/...` does produce the policy-refusal result,
but `session.call_tool` has already been invoked — the check is post hoc
(manager.py lines 319-321), so "the underlying tool is never contacted" is
false. -/
theorem c7_counterexample :
    (ToolManager.execute_tool_call true "tool-searching" "scrape"
      (some "https://huggingface.co/datasets/gaia-benchmark/GAIA")
      (.callReturns [some "the dataset rows"])).contacted = true
    ∧ (ToolManager.execute_tool_call true "tool-searching" "scrape"
      (some "https://huggingface.co/datasets/gaia-benchmark/GAIA")
      (.callReturns [some "the dataset rows"])).result = some ToolManager.hfBlockMsg := by
  exact ⟨by decide, by decide⟩

/-- C7 (amended): for every blocked scrape call on a configured server, when
the underlying tool call succeeds its result is REPLACED by the
policy-refusal text, but the tool has been contacted first; when the tool
call raises, the error is returned and no refusal text appears. -/
theorem c7_post_hoc_block (server tool : String) (url : Option String)
    (content : List (Option String))
    (h : ToolManager.should_block_hf_scraping tool url = true) :
    (ToolManager.execute_tool_call true server tool url (.callReturns content)).result
      = some ToolManager.hfBlockMsg
    ∧ (ToolManager.execute_tool_call true server tool url (.callReturns content)).contacted
      = true
    ∧ ∀ msg, (ToolManager.execute_tool_call true server tool url (.callRaises msg)).error
      = some ("Tool execution failed: " ++ msg)
      ∧ (ToolManager.execute_tool_call true server tool url (.callRaises msg)).contacted
        = true := by
  refine ⟨?_, ?_, fun msg => ⟨?_, ?_⟩⟩ <;>
    simp [ToolManager.execute_tool_call, h]

/-- C7 witness: the amended theorem at a concrete blocked call. -/
theorem c7_post_hoc_block_witness :
    (ToolManager.execute_tool_call true "tool-searching" "scrape"
      (some "https://huggingface.co/spaces/demo/app")
      (.callReturns [some "page body"])).result = some ToolManager.hfBlockMsg
    ∧ (ToolManager.execute_tool_call true "tool-searching" "scrape"
      (some "https://huggingface.co/spaces/demo/app")
      (.callReturns [some "page body"])).contacted = true :=
  ⟨(c7_post_hoc_block "tool-searching" "scrape"
      (some "https://huggingface.co/spaces/demo/app") [some "page body"] (by decide)).1,
   (c7_post_hoc_block "tool-searching" "scrape"
      (some "https://huggingface.co/spaces/demo/app") [some "page body"] (by decide)).2.1⟩

/-- C5 counterexample: for the nonempty summary `hello` neither boxed pattern
matches, yet the returned answer is the replacement text of io_utils.py
line 129, not the claimed sentinel `No final answer generated.` (io_utils.py
reserves that sentinel for an empty summary, line 133). -/
theorem c5_counterexample :
    extract_boxed_content "hello" = ""
    ∧ format_final_summary_boxed "hello" = noBoxedMsg
    ∧ noBoxedMsg ≠ "No final answer generated." := by
  exact ⟨by decide, by decide, by decide⟩

/-- C5 (amended): the boxed answer is the content of the last match of the
primary one-level-nesting pattern, falling back to the flat pattern; when the
extraction comes back empty the answer is the `noBoxedMsg` replacement for a
nonempty summary, and the `No final answer generated.` sentinel only for an
empty summary. -/
theorem c5_boxed_extraction (s : String) :
    (extract_boxed_content s ≠ "" →
      format_final_summary_boxed s = extract_boxed_content s)
    ∧ (extract_boxed_content s = "" → s ≠ "" →
      format_final_summary_boxed s = noBoxedMsg)
    ∧ (s = "" → format_final_summary_boxed s = noAnswerMsg)
    ∧ (primaryMatches s.toList ≠ [] → s ≠ "" →
      extract_boxed_content s = String.mk ((primaryMatches s.toList).getLast?.getD []))
    ∧ (primaryMatches s.toList = [] → s ≠ "" →
      extract_boxed_content s = String.mk ((fallbackMatches s.toList).getLast?.getD [])) := by
  refine ⟨?_, ?_, ?_, ?_, ?_⟩
  · intro h
    simp [format_final_summary_boxed, h]
  · intro h hs
    simp [format_final_summary_boxed, h, hs]
  · intro h
    subst h
    simp [format_final_summary_boxed, extract_boxed_content, noAnswerMsg]
  · intro hp hs
    have h2 : (primaryMatches s.toList).isEmpty = false := by
      cases h : primaryMatches s.toList with
      | nil => exact absurd h hp
      | cons a l => rfl
    simp only [extract_boxed_content, h2]
    simp only [beq_iff_eq, hs, ite_false, Bool.false_eq_true]
    cases hgl : (primaryMatches s.toList).getLast? <;> simp [hgl]
  · intro hp hs
    have h2 : (primaryMatches s.toList).isEmpty = true := by rw [hp]; rfl
    simp only [extract_boxed_content, h2]
    simp only [beq_iff_eq, hs, ite_false, ite_true]
    cases hgl : (fallbackMatches s.toList).getLast? <;> simp [hgl]

/-- C5 witness: the amended theorem at a concrete summary with a boxed
answer. -/
theorem c5_boxed_extraction_witness :
    format_final_summary_boxed "Done. \\boxed\x7b42\x7d"
      = extract_boxed_content "Done. \\boxed\x7b42\x7d" :=
  (c5_boxed_extraction "Done. \\boxed\x7b42\x7d").1 (by decide)

/-- C4: the LLM-round handler returns the triple
`(None, True, "context_limit")` exactly when the client raised the
distinguishable `ContextLimitError`; every other failure — timeout, any other
exception, a falsy response, an empty assistant text — yields
`(None, True, None)`. -/
theorem c4_context_limit_signalling (clean : String → String)
    (parse : String → ParsedCalls) (history : List Message)
    (outcome : CreateMessageOutcome) :
    ((handle_llm_call_with_logging clean parse history outcome).1
        = (none, true, ToolCallsInfo.contextLimit)
      ↔ outcome = .contextLimitRaised)
    ∧ ((handle_llm_call_with_logging clean parse history outcome).1.1 = none
        ∧ outcome ≠ .contextLimitRaised →
      (handle_llm_call_with_logging clean parse history outcome).1
        = (none, true, ToolCallsInfo.noneInfo)) := by
  cases outcome with
  | returned resp =>
    cases resp with
    | none => simp [handle_llm_call_with_logging]
    | some r =>
      cases hc : r.choices with
      | nil =>
        simp [handle_llm_call_with_logging, OpenCodeClient.process_llm_response, hc]
      | cons c tl =>
        by_cases ht : clean c.content = "" <;>
          simp [handle_llm_call_with_logging, OpenCodeClient.process_llm_response,
            hc, ht]
  | timeoutRaised => simp [handle_llm_call_with_logging]
  | contextLimitRaised => simp [handle_llm_call_with_logging]
  | otherRaised => simp [handle_llm_call_with_logging]

/-- C4 witness: a raised `ContextLimitError` maps to the sentinel triple and
a timeout maps to `(None, True, None)`. -/
theorem c4_context_limit_signalling_witness :
    (handle_llm_call_with_logging id (fun _ => ⟨[], []⟩) []
        CreateMessageOutcome.contextLimitRaised).1
      = (none, true, ToolCallsInfo.contextLimit)
    ∧ (handle_llm_call_with_logging id (fun _ => ⟨[], []⟩) []
        CreateMessageOutcome.timeoutRaised).1
      = (none, true, ToolCallsInfo.noneInfo) :=
  ⟨(c4_context_limit_signalling id (fun _ => ⟨[], []⟩) []
      CreateMessageOutcome.contextLimitRaised).1.mpr rfl,
   (c4_context_limit_signalling id (fun _ => ⟨[], []⟩) []
      CreateMessageOutcome.timeoutRaised).2 ⟨rfl, by decide⟩⟩

/-- C2: with every collected entry text-typed (as `format_tool_result_for_user`
guarantees), `update_message_history` appends exactly one user message; for at
least two entries its text is the join of the cap/processed header (with K =
number of valid results), the `Valid tool call i result:` sections in call
order and then the `Failed tool call j result:` sections — in particular it
begins with the header; for a single entry the text is exactly the result
text of that entry. -/
theorem c2_update_message_history_merge (history : List Message)
    (entries : List ToolResultEntry) (exceeded : Bool)
    (hall : ∀ e ∈ entries, e.ctype = "text") :
    update_message_history history entries exceeded
      = history ++ [⟨"user", mergedToolResultText entries exceeded⟩]
    ∧ (2 ≤ entries.length →
        mergedToolResultText entries exceeded
          = pyJoin "\n\n"
              ((if exceeded then
                  exceededHeader (entries.filter (fun e => e.tool_id != "FAILED")).length
                else
                  processedHeader (entries.filter (fun e => e.tool_id != "FAILED")).length)
                :: ((entries.filter (fun e => e.tool_id != "FAILED")).enum.map
                      (fun p => validSection (p.1 + 1) p.2.text)
                  ++ (entries.filter (fun e => e.tool_id == "FAILED")).enum.map
                      (fun p => failedSection (p.1 + 1) p.2.text)))
        ∧ ∃ rest, mergedToolResultText entries exceeded
            = (if exceeded then
                exceededHeader (entries.filter (fun e => e.tool_id != "FAILED")).length
              else
                processedHeader (entries.filter (fun e => e.tool_id != "FAILED")).length)
              ++ rest)
    ∧ (∀ x, entries = [x] → mergedToolResultText entries exceeded = x.text) := by
  refine ⟨rfl, ?_, ?_⟩
  · intro h2
    have heq :
        mergedToolResultText entries exceeded
          = pyJoin "\n\n"
              ((if exceeded then
                  exceededHeader (entries.filter (fun e => e.tool_id != "FAILED")).length
                else
                  processedHeader (entries.filter (fun e => e.tool_id != "FAILED")).length)
                :: ((entries.filter (fun e => e.tool_id != "FAILED")).enum.map
                      (fun p => validSection (p.1 + 1) p.2.text)
                  ++ (entries.filter (fun e => e.tool_id == "FAILED")).enum.map
                      (fun p => failedSection (p.1 + 1) p.2.text))) := by
      have htotal := length_failed_partition entries
      unfold mergedToolResultText
      rw [filter_text_of_all entries hall]
      rw [if_pos (by omega)]
    exact ⟨heq, heq ▸ pyJoin_head_pre _ _ _⟩
  · intro x hx
    subst hx
    have ha : x.ctype = "text" := hall x (by simp)
    by_cases h : x.tool_id = "FAILED" <;>
      simp [mergedToolResultText, List.filter_cons, ha, h, pyJoin]

/-- C2 witness: the at-least-two-entries merge at a concrete input (one valid
result, one fabricated `FAILED` result, cap not exceeded). -/
theorem c2_update_message_history_merge_witness :
    mergedToolResultText [⟨"id1", "text", "ra"⟩, ⟨"FAILED", "text", "rf"⟩] false
      = pyJoin "\n\n"
          [processedHeader 1, validSection 1 "ra", failedSection 1 "rf"] := by
  have h := (c2_update_message_history_merge []
    [⟨"id1", "text", "ra"⟩, ⟨"FAILED", "text", "rf"⟩] false
    (by decide)).2.1 (by decide)
  exact h.1.trans (by decide)

/-- C8: only a successful result of the tool named `scrape` is rewritten by
`post_process_tool_call_result` — any other tool name, and any result-less
dict, passes through unchanged — and the rewrite bounds the text by
`SCRAPE_MAX_LENGTH` (20000): a non-JSON result string is truncated to at most
that many characters, and a JSON-object result with an absent, null or string
`text` member is replaced by `{"text": …}` whose string text has at most that
many characters. -/
theorem c8_scrape_truncation (tool : String) (parsed : Option PyJson)
    (tcr : ToolCallResult) :
    (tool ≠ "scrape" → post_process_tool_call_result tool parsed tcr = some tcr)
    ∧ (tcr.result = none → post_process_tool_call_result tool parsed tcr = some tcr)
    ∧ (∀ r, tcr.result = some r → parsed = none →
        post_process_tool_call_result "scrape" parsed tcr
          = some { tcr with result := some (if r.length > SCRAPE_MAX_LENGTH
              then PyJson.pyTake r SCRAPE_MAX_LENGTH else r) }
        ∧ (if r.length > SCRAPE_MAX_LENGTH
            then PyJson.pyTake r SCRAPE_MAX_LENGTH else r).length ≤ SCRAPE_MAX_LENGTH)
    ∧ (∀ r kvs, tcr.result = some r → parsed = some (.obj kvs) →
        (PyJson.pyGet kvs "text" = none ∨ PyJson.pyGet kvs "text" = some .null
          ∨ ∃ s, PyJson.pyGet kvs "text" = some (.str s)) →
        ∃ t2, post_process_tool_call_result "scrape" parsed tcr
            = some { tcr with result := some (PyJson.dumps (.obj [("text", t2)])) }
          ∧ ∀ s, t2 = .str s → s.length ≤ SCRAPE_MAX_LENGTH) := by
  refine ⟨?_, ?_, ?_, ?_⟩
  · intro h
    cases hr : tcr.result <;>
      simp [post_process_tool_call_result, hr, h]
  · intro h
    simp [post_process_tool_call_result, h]
  · intro r hr hp
    subst hp
    constructor
    · simp [post_process_tool_call_result, hr, get_scrape_result]
    · exact trunc_length_le r SCRAPE_MAX_LENGTH
  · intro r kvs hr hp hdom
    subst hp
    rcases hdom with h | h | ⟨s, h⟩
    · exact ⟨.null, by simp [post_process_tool_call_result, hr,
        get_scrape_result_obj_null kvs r (Or.inl h)], fun s hs => nomatch hs⟩
    · exact ⟨.null, by simp [post_process_tool_call_result, hr,
        get_scrape_result_obj_null kvs r (Or.inr h)], fun s hs => nomatch hs⟩
    · refine ⟨.str (if s.length > SCRAPE_MAX_LENGTH
        then PyJson.pyTake s SCRAPE_MAX_LENGTH else s), ?_, ?_⟩
      · simp [post_process_tool_call_result, hr, get_scrape_result_obj_str kvs r s h]
      · intro s2 hs2
        cases hs2
        exact trunc_length_le s SCRAPE_MAX_LENGTH

/-- C8 witness: a long non-JSON scrape result is truncated to exactly
`SCRAPE_MAX_LENGTH` characters, and a `search` result is untouched. -/
theorem c8_scrape_truncation_witness :
    (post_process_tool_call_result "scrape" none
        ⟨"tool-searching", "scrape", some (String.mk (List.replicate 20001 'x')), none⟩
      = some ⟨"tool-searching", "scrape",
          some (if (String.mk (List.replicate 20001 'x')).length > SCRAPE_MAX_LENGTH
            then PyJson.pyTake (String.mk (List.replicate 20001 'x')) SCRAPE_MAX_LENGTH
            else String.mk (List.replicate 20001 'x')), none⟩
      ∧ (if (String.mk (List.replicate 20001 'x')).length > SCRAPE_MAX_LENGTH
          then PyJson.pyTake (String.mk (List.replicate 20001 'x')) SCRAPE_MAX_LENGTH
          else String.mk (List.replicate 20001 'x')).length ≤ SCRAPE_MAX_LENGTH)
    ∧ post_process_tool_call_result "search" none
        ⟨"tool-searching", "search", some "hit", none⟩
      = some ⟨"tool-searching", "search", some "hit", none⟩ :=
  ⟨(c8_scrape_truncation "scrape" none
      ⟨"tool-searching", "scrape", some (String.mk (List.replicate 20001 'x')), none⟩).2.2.1
      (String.mk (List.replicate 20001 'x')) rfl rfl,
   (c8_scrape_truncation "search" none
      ⟨"tool-searching", "search", some "hit", none⟩).1 (by decide)⟩

/-- C10 witness: the amended normalization at concrete inputs. -/
theorem c10_scrape_json_normalization_witness :
    get_scrape_result (some (.obj [("a", .num 1), ("text", .str "hi")])) "raw"
      = some (PyJson.dumps (.obj [("text",
          .str (if ("hi" : String).length > SCRAPE_MAX_LENGTH
                then PyJson.pyTake "hi" SCRAPE_MAX_LENGTH else "hi"))])) :=
  (c10_scrape_json_normalization [("a", .num 1), ("text", .str "hi")] "raw").2 "hi" rfl

end MiroFlow
